import Mathlib

/-
Verification of the butterfly case-lifecycle layer.

Shallow embedding of the relevant parts of src/butterfly/case.py and
src/butterfly/windtunnel.py.  File-system state is modelled as a list of
directory entries of the project root; Python strings are modelled as
lists of characters; fallible operations return Except.  Failure oracles
(which rmtree or mkdir calls fail) are passed as explicit lists of paths.
-/

namespace Butterfly

/-- A Python string (a file or folder name) modelled as a list of characters. -/
abbrev FName := List Char

/-- One entry of the project root directory, as the listing operations of
Case observe it: its name, whether it is a directory
(os.path.isdir(join(projectDir, name))), and whether it contains a
polyMesh subdirectory (os.path.isdir(join(projectDir, name, 'polyMesh'))).
A plain file never contains a subdirectory, so hasPolyMesh is false for
non-directories in any state reachable on a real file system. -/
structure Entry where
  name : FName
  isDir : Bool
  hasPolyMesh : Bool
deriving DecidableEq, Repr

/-- The contents of the project root folder. -/
abbrev FileSystem := List Entry

/-- Python name.isdigit() for a py2 str: non-empty and all ASCII digits. -/
def isDigitName (s : FName) : Bool := !s.isEmpty && s.all Char.isDigit

/-- Python int(s) on a digit string: decimal value. -/
def charsToNat (s : FName) : Nat := s.foldl (fun n c => 10 * n + (c.toNat - 48)) 0

/-- Python str(n) on a non-negative int: decimal representation. -/
def natToChars (n : Nat) : FName := (Nat.repr n).data

/-- The name of the reserved initial folder. -/
def zeroName : FName := ['0']

/-- The suffix appended to frozen snapshot folders. -/
def orgSuffix : FName := ['.', 'o', 'r', 'g']

/-- The filter of Case.getSnappyHexMeshFolders (case.py lines 325-329):
name.isdigit() and isdir(join(projectDir, name, 'polyMesh')). -/
def snappyQualifies (e : Entry) : Bool := isDigitName e.name && e.hasPolyMesh

/-- The filter of Case.getResultFolders (case.py lines 337-341):
name != '0' and name.isdigit() and isdir(join(projectDir, name)) and
not isdir(join(projectDir, name, 'polyMesh')). -/
def resultQualifies (e : Entry) : Bool :=
  !(e.name = zeroName : Bool) && isDigitName e.name && e.isDir && !e.hasPolyMesh

/-- Shared body of the two numbered-folder listings: collect int(name) of the
qualifying entries, sort the integers, render them back with str().
Python list.sort on ints is modelled by insertionSort with ≤ (both produce
the unique ≤-sorted permutation of a list of naturals). -/
def sortedNumbered (q : Entry → Bool) (fs : FileSystem) : List FName :=
  (List.insertionSort (· ≤ ·) ((fs.filter q).map (fun e => charsToNat e.name))).map natToChars

/-- Case.getSnappyHexMeshFolders (case.py lines 323-333). -/
def getSnappyHexMeshFolders (fs : FileSystem) : List FName :=
  sortedNumbered snappyQualifies fs

/-- Case.getResultFolders (case.py lines 335-345). -/
def getResultFolders (fs : FileSystem) : List FName :=
  sortedNumbered resultQualifies fs

/- ---------------------------------------------------------------------
   Command execution (Case.command, case.py lines 523-577).
   RunManager lives in the external runmanager module (not among the
   sources); its file-inspection step is modelled from the spec.
--------------------------------------------------------------------- -/

/-- The observable surroundings of one Case.command invocation with run=True:
the log/error file paths produced by runmanager.run and the content the
error file holds once the dispatched process has exited. -/
structure RunEnv where
  logfiles : List FName
  errfiles : List FName
  errContent : FName
deriving DecidableEq, Repr

/-- The namedtuple log(success, error, process, logfiles, errorfiles)
returned by Case.command when run=True. -/
structure CmdResult where
  success : Bool
  error : Option FName
  process : Option Unit
  logfiles : List FName
  errfiles : List FName
deriving DecidableEq, Repr

/-- Modelled from the spec: RunManager.checkFileContents (the runmanager
module is not part of this repository's sources).  Per spec 4.5 the error
file is inspected after the process exits; has-content is true iff the
file is non-empty, and the reported content is the file's content
verbatim (None when there is nothing to report). -/
def checkFileContents (content : FName) : Bool × Option FName :=
  if content.isEmpty then (false, none) else (true, some content)

/-- Case.command with run=True (case.py lines 557-577).  With wait=True the
error files are inspected and log(not hascontent, content, p, ...) is
returned; with wait=False log(True, None, None, ...) is returned without
any inspection of the error file. -/
def command (env : RunEnv) (wait : Bool) : CmdResult :=
  if wait then
    { success := !(checkFileContents env.errContent).1
      error := (checkFileContents env.errContent).2
      process := some ()
      logfiles := env.logfiles
      errfiles := env.errfiles }
  else
    { success := true
      error := none
      process := none
      logfiles := env.logfiles
      errfiles := env.errfiles }

/- ---------------------------------------------------------------------
   Project-name validation (Case.projectName setter, case.py lines 221-226):
   assert re.match("^[a-zA-Z0-9_]*$", name).
--------------------------------------------------------------------- -/

/-- A character of the class [a-zA-Z0-9_]. -/
def isProjectChar (c : Char) : Bool := c.isAlphanum || c = '_'

/-- The newline character. -/
def newlineChar : Char := Char.ofNat 10

/-- Python re.match("^[a-zA-Z0-9_]*$", s): the greedy star consumes valid
characters and the dollar anchor matches at the end of the string or just
before a single newline at the end of the string, so the pattern accepts
exactly the all-valid strings and the all-valid strings followed by one
trailing newline. -/
def pyMatchProjectName (s : FName) : Bool :=
  s.all isProjectChar ||
    ((s.getLast? = some newlineChar : Bool) && s.dropLast.all isProjectChar)

/-- The projectName setter: the assert raises (error) iff the regex does not
match. -/
def setProjectName (s : FName) : Except String FName :=
  if pyMatchProjectName s then .ok s else .error "Invalid project name"

/- ---------------------------------------------------------------------
   Refinement regions (Case.addRefinementRegion, case.py lines 360-369).
--------------------------------------------------------------------- -/

/-- A refinement-region argument: its name and whether it carries the
isRefinementRegion capability attribute checked by hasattr. -/
structure Region where
  name : FName
  isRefinementRegion : Bool
deriving DecidableEq, Repr

/-- The part of a Case's state touched by addRefinementRegion: the private
refinementRegions list, whether a snappyHexMeshDict attribute was
installed from the foamfiles, and the regions registered in that dict. -/
structure CaseState where
  refinementRegions : List FName
  hasSnappyHexMeshDict : Bool
  dictRegions : List FName
deriving DecidableEq, Repr

/-- Case.addRefinementRegion: assert the capability, append to the private
list, then assert that a snappyHexMeshDict exists, then register the
region with it.  The function returns the state as left behind by the
Python method together with the raised assertion message, if any. -/
def addRefinementRegion (c : CaseState) (r : Region) : CaseState × Option String :=
  if !r.isRefinementRegion then (c, some "is not a refinement region")
  else
    let c1 : CaseState := { c with refinementRegions := c.refinementRegions ++ [r.name] }
    if !c.hasSnappyHexMeshDict then
      (c1, some "You cannot add a refinementRegion to a case with no snappyHexMeshDict")
    else ({ c1 with dictRegions := c1.dictRegions ++ [r.name] }, none)

/- ---------------------------------------------------------------------
   Wind-tunnel parameters (TunnelParameters.__init__, windtunnel.py
   lines 268-284).  The numeric multipliers are modelled as rationals;
   only their sign matters to the checked property.
--------------------------------------------------------------------- -/

/-- TunnelParameters.__check_input: assert _inp > 0 after the numeric
conversion. -/
def checkInput (x : ℚ) : Except String ℚ :=
  if 0 < x then .ok x else .error "Value should be larger than 0"

/-- The four validated wind-tunnel multipliers. -/
structure TunnelParameters where
  windward : ℚ
  top : ℚ
  side : ℚ
  leeward : ℚ
deriving DecidableEq, Repr

/-- TunnelParameters.__init__: each of the four inputs goes through
__check_input, in order, before the object exists. -/
def tunnelParametersInit (w t s l : ℚ) : Except String TunnelParameters :=
  match checkInput w with
  | .error e => .error e
  | .ok w' =>
    match checkInput t with
    | .error e => .error e
    | .ok t' =>
      match checkInput s with
      | .error e => .error e
      | .ok s' =>
        match checkInput l with
        | .error e => .error e
        | .ok l' => .ok ⟨w', t', s', l'⟩

/- ---------------------------------------------------------------------
   Renaming and removing snapshot folders (case.py lines 392-441).
--------------------------------------------------------------------- -/

/-- os.rename inside the project root: the renamed entry keeps its other
attributes.  os.rename raises when the target name already exists (the
source assumes the Windows semantics, as its backslash paths show); the
model assumes the renamed source exists, which the directory listing that
produced its name guarantees. -/
def renameEntry (fs : FileSystem) (src tgt : FName) : Except String FileSystem :=
  if fs.any (fun e => e.name = tgt) then .error "os.rename: target exists"
  else .ok (fs.map (fun e => if e.name = src then { e with name := tgt } else e))

/-- Renaming each folder of a list in turn, stopping at the first error.
Both branches of renameSnappyHexMeshFolders take their folder list from
the initial directory listing; renaming one listed folder cannot change
whether another listed folder qualifies, so the eager list is equivalent
to the source's lazily filtered iteration. -/
def foldRename (tgt : FName → FName) : List FName → FileSystem → Except String FileSystem
  | [], fs => .ok fs
  | f :: rest, fs =>
    match renameEntry fs f (tgt f) with
    | .error e => .error e
    | .ok fs' => foldRename tgt rest fs'

/-- The frozen name: '%s.org' % f. -/
def orgTarget (f : FName) : FName := f ++ orgSuffix

/-- Python str.replace with the literal pattern '.org' and an empty
replacement: scan left to right, removing each non-overlapping
occurrence.  The fuel starts at the string length, which bounds the
number of scan steps. -/
def replaceOrgAux : Nat → FName → FName
  | _, [] => []
  | 0, s => s
  | fuel + 1, c :: cs =>
    if orgSuffix.isPrefixOf (c :: cs) then
      replaceOrgAux fuel ((c :: cs).drop orgSuffix.length)
    else c :: replaceOrgAux fuel cs

/-- f.replace('.org', ''), as used by the restore branch. -/
def pyReplaceOrg (s : FName) : FName := replaceOrgAux s.length s

/-- The folders the restore branch iterates over: names ending in '.org'
whose folder contains a polyMesh subdirectory (case.py lines 401-404). -/
def restoreList (fs : FileSystem) : List FName :=
  (fs.filter (fun e => orgSuffix.isSuffixOf e.name && e.hasPolyMesh)).map (fun e => e.name)

/-- Case.renameSnappyHexMeshFolders (case.py lines 392-418): with add=False
every '.org' polyMesh folder is renamed to name.replace('.org', '') — the
renames are not guarded, so an OSError propagates to the caller; with
add=True every listed snapshot folder f is renamed to f.org, any failure
being re-raised with a wrapping message. -/
def renameSnappyHexMeshFolders (fs : FileSystem) (add : Bool) : Except String FileSystem :=
  if !add then foldRename pyReplaceOrg (restoreList fs) fs
  else
    match foldRename orgTarget (getSnappyHexMeshFolders fs) fs with
    | .error e => .error ("Failed to rename snappyHexMesh folders: " ++ e)
    | .ok fs' => .ok fs'

/-- The cumulative effect of renaming every folder named in l through the
target function T. -/
def renIn (l : List FName) (T : FName → FName) (e : Entry) : Entry :=
  if e.name ∈ l then { e with name := T e.name } else e

/-- Case.removeResultFolders (case.py lines 434-441): each rmtree is tried
in turn; rmFails names the folders whose deletion raises.  A failing
folder is reported by the except-print (collected in the second
component) and the loop continues; a succeeding one disappears from the
root. -/
def removeResultLoop (rmFails : List FName) : List FName → FileSystem → FileSystem × List FName
  | [], fs => (fs, [])
  | f :: rest, fs =>
    if f ∈ rmFails then
      let r := removeResultLoop rmFails rest fs
      (r.1, f :: r.2)
    else removeResultLoop rmFails rest (fs.filter (fun e => !(e.name = f : Bool)))

/-- Case.removeResultFolders over the listed result folders. -/
def removeResultFolders (fs : FileSystem) (rmFails : List FName) : FileSystem × List FName :=
  removeResultLoop rmFails (getResultFolders fs) fs

/-- The deletion loop of Case.removeSnappyHexMeshFolders (case.py lines
428-432): when rmtree raises, the except block evaluates
'Failed to remove ...'.format(_f, e) — but no name _f is bound (the loop
variable is f), so the print itself raises NameError, which propagates
and aborts the loop. -/
def removeSnappyLoop (rmFails : List FName) : List FName → FileSystem → Except String FileSystem
  | [], fs => .ok fs
  | f :: rest, fs =>
    if f ∈ rmFails then .error "NameError: name _f is not defined"
    else removeSnappyLoop rmFails rest (fs.filter (fun e => !(e.name = f : Bool)))

/-- Case.removeSnappyHexMeshFolders (case.py lines 420-432): restore the
frozen folders, then delete every listed snapshot folder. -/
def removeSnappyHexMeshFolders (fs : FileSystem) (rmFails : List FName) :
    Except String FileSystem :=
  match renameSnappyHexMeshFolders fs false with
  | .error e => .error e
  | .ok fs' => removeSnappyLoop rmFails (getSnappyHexMeshFolders fs') fs'

/- ---------------------------------------------------------------------
   Saving the case folder structure (Case.save, case.py lines 485-508).
--------------------------------------------------------------------- -/

/-- Case.SUBFOLDERS (case.py lines 61-62). -/
def SUBFOLDERS : List FName :=
  ["0".data, "constant".data, "constant\\polyMesh".data,
   "constant\\triSurface".data, "system".data, "log".data]

/-- The surroundings of one Case.save call: whether the project root
exists, which subfolder paths already exist beneath it, whether the
best-effort rmtree(projectDir, ignore_errors=True) actually removes the
tree, and which os.makedirs calls raise. -/
structure SaveEnv where
  rootExists : Bool
  existing : List FName
  deleteSucceeds : Bool
  mkdirFails : List FName
deriving DecidableEq, Repr

/-- The subfolder-creation loop of Case.save (case.py lines 496-504): skip
paths that exist, try os.makedirs otherwise; a failure raises IOError
naming the path and stops the loop.  Besides the loop's outcome, the
trace of attempted makedirs calls is returned. -/
def mkdirLoop (failing : List FName) :
    List FName → List FName → Except FName (List FName) × List FName
  | [], existing => (.ok existing, [])
  | f :: rest, existing =>
    if f ∈ existing then mkdirLoop failing rest existing
    else if f ∈ failing then (.error f, [f])
    else
      let r := mkdirLoop failing rest (existing ++ [f])
      (r.1, f :: r.2)

/-- The folder phase of Case.save (case.py lines 492-504): with overwrite,
first a best-effort delete of the whole project root whose errors are
ignored, then the creation loop over SUBFOLDERS. -/
def save (env : SaveEnv) (overwrite : Bool) : Except FName (List FName) × List FName :=
  let existing :=
    if overwrite && env.rootExists then
      (if env.deleteSucceeds then [] else env.existing)
    else env.existing
  mkdirLoop env.mkdirFails SUBFOLDERS existing

/- ---------------------------------------------------------------------
   Well-formedness predicates for project roots, and concrete fixtures.
--------------------------------------------------------------------- -/

/-- Every digit-named entry carries the canonical decimal spelling of its
value (no leading zeros), as is the case for the folders the solver and
mesher create: str(int(name)) == name. -/
abbrev CanonDigits (fs : FileSystem) : Prop :=
  ∀ e ∈ fs, isDigitName e.name = true → natToChars (charsToNat e.name) = e.name

/-- Entry names are pairwise distinct, as in any real directory listing. -/
abbrev NodupNames (fs : FileSystem) : Prop := (fs.map (fun e => e.name)).Nodup

/-- No entry name carries the frozen suffix yet. -/
abbrev NoOrgNames (fs : FileSystem) : Prop :=
  ∀ e ∈ fs, orgSuffix.isSuffixOf e.name = false

/-- A project root whose initial folder 0 contains a polyMesh
subdirectory. -/
def zeroPolyFs : FileSystem := [⟨['0'], true, true⟩]

/-- A project root with mesh snapshots 3, 10, 2 and result folder 5. -/
def numberedFs : FileSystem :=
  [⟨['3'], true, true⟩, ⟨['1', '0'], true, true⟩, ⟨['2'], true, true⟩,
   ⟨['5'], true, false⟩]

/-- A project root with one mesh snapshot 2, one result folder 5 and the
initial folder 0. -/
def partitionFs : FileSystem :=
  [⟨['2'], true, true⟩, ⟨['5'], true, false⟩, ⟨['0'], true, false⟩]

/-- A project root with mesh snapshots 1 and 2 and a result folder 5. -/
def snappyRemoveFs : FileSystem :=
  [⟨['1'], true, true⟩, ⟨['2'], true, true⟩, ⟨['5'], true, false⟩]

/-- A project root with result folders 5 and 7. -/
def resultRemoveFs : FileSystem :=
  [⟨['5'], true, false⟩, ⟨['7'], true, false⟩]

/-- A project root with a frozen snapshot 2.org whose restore target 2
already exists as a result folder. -/
def collisionFs : FileSystem :=
  [⟨['2', '.', 'o', 'r', 'g'], true, true⟩, ⟨['2'], true, false⟩]

/-- A project root with a snapshot 2 and a result folder 5, for the
freeze/restore round trip. -/
def freezeFs : FileSystem := [⟨['2'], true, true⟩, ⟨['5'], true, false⟩]

/-- A save call where deleting the root fails and creating 'system'
fails. -/
def saveEnvW : SaveEnv := ⟨true, [], false, ["system".data]⟩

end Butterfly

namespace Butterfly

/- ---------------------------------------------------------------------
   Shared lemmas about the numbered-folder listings.
--------------------------------------------------------------------- -/

theorem snappyQualifies_digit {e : Entry} (h : snappyQualifies e = true) :
    isDigitName e.name = true := by
  unfold snappyQualifies at h
  exact (Bool.and_eq_true _ _ |>.mp h).1

theorem resultQualifies_digit {e : Entry} (h : resultQualifies e = true) :
    isDigitName e.name = true := by
  unfold resultQualifies at h
  repeat rw [Bool.and_eq_true] at h
  exact h.1.1.2

theorem sortedNumbered_perm (q : Entry → Bool)
    (hq : ∀ e, q e = true → isDigitName e.name = true)
    (fs : FileSystem) (hc : CanonDigits fs) :
    (sortedNumbered q fs).Perm ((fs.filter q).map (fun e => e.name)) := by
  unfold sortedNumbered
  have h1 := (List.perm_insertionSort (α := ℕ) (· ≤ ·)
    ((fs.filter q).map (fun e => charsToNat e.name))).map natToChars
  have h2 : ((fs.filter q).map (fun e => charsToNat e.name)).map natToChars
      = (fs.filter q).map (fun e => e.name) := by
    rw [List.map_map]
    apply List.map_congr_left
    intro e he
    exact hc e (List.mem_of_mem_filter he) (hq e (List.of_mem_filter he))
  exact h2 ▸ h1

theorem mem_sortedNumbered {q : Entry → Bool}
    (hq : ∀ e, q e = true → isDigitName e.name = true)
    {fs : FileSystem} (hc : CanonDigits fs) {s : FName} :
    s ∈ sortedNumbered q fs ↔ ∃ e, e ∈ fs ∧ q e = true ∧ e.name = s := by
  rw [(sortedNumbered_perm q hq fs hc).mem_iff]
  simp only [List.mem_map, List.mem_filter]
  constructor
  · rintro ⟨e, ⟨hef, heq⟩, rfl⟩
    exact ⟨e, hef, heq, rfl⟩
  · rintro ⟨e, hef, heq, rfl⟩
    exact ⟨e, ⟨hef, heq⟩, rfl⟩

theorem sortedNumbered_sorted (q : Entry → Bool)
    (hq : ∀ e, q e = true → isDigitName e.name = true)
    (fs : FileSystem) (hc : CanonDigits fs) :
    List.Sorted (fun a b : FName => charsToNat a ≤ charsToNat b)
      (sortedNumbered q fs) := by
  have hval : ∀ x ∈ List.insertionSort (α := ℕ) (· ≤ ·)
      ((fs.filter q).map (fun e => charsToNat e.name)),
      charsToNat (natToChars x) = x := by
    intro x hx
    rw [List.mem_insertionSort] at hx
    rcases List.mem_map.mp hx with ⟨e, he, rfl⟩
    rw [hc e (List.mem_of_mem_filter he) (hq e (List.of_mem_filter he))]
  show List.Pairwise _ _
  unfold sortedNumbered
  rw [List.pairwise_map]
  have hs : List.Sorted (· ≤ ·) (List.insertionSort (α := ℕ) (· ≤ ·)
      ((fs.filter q).map (fun e => charsToNat e.name))) :=
    List.sorted_insertionSort _ _
  exact hs.imp_of_mem (fun ha hb hab => by rw [hval _ ha, hval _ hb]; exact hab)

theorem sortedNumbered_nodup (q : Entry → Bool)
    (hq : ∀ e, q e = true → isDigitName e.name = true)
    (fs : FileSystem) (hc : CanonDigits fs) (hnd : NodupNames fs) :
    (sortedNumbered q fs).Nodup := by
  have hval : ∀ x ∈ List.insertionSort (α := ℕ) (· ≤ ·)
      ((fs.filter q).map (fun e => charsToNat e.name)),
      charsToNat (natToChars x) = x := by
    intro x hx
    rw [List.mem_insertionSort] at hx
    rcases List.mem_map.mp hx with ⟨e, he, rfl⟩
    rw [hc e (List.mem_of_mem_filter he) (hq e (List.of_mem_filter he))]
  unfold sortedNumbered
  apply List.Nodup.map_on
  · intro x hx y hy hxy
    rw [← hval x hx, ← hval y hy, hxy]
  · rw [(List.perm_insertionSort _ _).nodup_iff]
    apply List.Nodup.map_on
    · intro e he e' he' heq
      have h1 := hc e (List.mem_of_mem_filter he) (hq e (List.of_mem_filter he))
      have h2 := hc e' (List.mem_of_mem_filter he') (hq e' (List.of_mem_filter he'))
      have hname : e.name = e'.name := by rw [← h1, ← h2, heq]
      exact List.inj_on_of_nodup_map hnd
        (List.mem_of_mem_filter he) (List.mem_of_mem_filter he') hname
    · exact (hnd.of_map _).filter _

/- ---------------------------------------------------------------------
   Claims C1, C9: command classification.
--------------------------------------------------------------------- -/

/-- C1: with run=True and wait=True, Case.command reports success iff the
error file is empty after the process exits, and when the error file is
non-empty the reported error content is the error file's content
verbatim. -/
theorem command_success_iff_empty_error (env : RunEnv) :
    ((command env true).success = true ↔ env.errContent = []) ∧
      (env.errContent ≠ [] → (command env true).error = some env.errContent) := by
  cases hc : env.errContent with
  | nil =>
    refine ⟨by simp [command, checkFileContents, hc], fun h => absurd rfl h⟩
  | cons a l =>
    exact ⟨by simp [command, checkFileContents, hc],
      fun _ => by simp [command, checkFileContents, hc]⟩

/-- Witness for C1 at a one-character error file and at an empty one. -/
theorem command_success_iff_empty_error_witness :
    ((command ⟨[], [], ['e']⟩ true).success = true ↔ (['e'] : FName) = []) ∧
      (command ⟨[], [], ['e']⟩ true).error = some ['e'] :=
  ⟨(command_success_iff_empty_error ⟨[], [], ['e']⟩).1,
    (command_success_iff_empty_error ⟨[], [], ['e']⟩).2 (by decide)⟩

/-- C9: with run=True and wait=False, Case.command always returns
success=True, error=None, process=None (with the file paths passed
through), whatever the error file may later hold: the result does not
depend on the error-file content at all. -/
theorem command_nowait_always_success (env : RunEnv) (c₁ c₂ : FName) :
    (command env false).success = true ∧
      (command env false).error = none ∧
      (command env false).process = none ∧
      (command env false).logfiles = env.logfiles ∧
      (command env false).errfiles = env.errfiles ∧
      command { env with errContent := c₁ } false =
        command { env with errContent := c₂ } false := by
  simp [command]

/- ---------------------------------------------------------------------
   Claim C6: project-name validation.
--------------------------------------------------------------------- -/

/-- C6 (code bug): the name "abc" followed by a newline contains whitespace,
yet the projectName setter accepts it, because the dollar anchor of
re.match("^[a-zA-Z0-9_]*$", name) also matches just before a trailing
newline.  The claim (and the assert's own message, which forbids
whitespace) say such a name must be rejected. -/
theorem projectName_accepts_trailing_newline :
    (['a', 'b', 'c', newlineChar] : FName).any Char.isWhitespace = true ∧
      setProjectName ['a', 'b', 'c', newlineChar] = .ok ['a', 'b', 'c', newlineChar] := by
  constructor
  · decide
  · rfl

/- ---------------------------------------------------------------------
   Claim C8: tunnel-parameter validation.
--------------------------------------------------------------------- -/

/-- C8: TunnelParameters construction fails with a validation error exactly
when one of the four multipliers is non-positive; the check happens inside
construction itself (the constructor returns either the error or the
completed object, never an unchecked object). -/
theorem tunnelParameters_error_iff_nonpositive (w t s l : ℚ) :
    (∃ e, tunnelParametersInit w t s l = .error e) ↔
      (w ≤ 0 ∨ t ≤ 0 ∨ s ≤ 0 ∨ l ≤ 0) := by
  rcases lt_or_le 0 w with h1 | h1
  · rcases lt_or_le 0 t with h2 | h2
    · rcases lt_or_le 0 s with h3 | h3
      · rcases lt_or_le 0 l with h4 | h4
        · simp [tunnelParametersInit, checkInput, h1, h2, h3, h4,
            not_le.mpr h1, not_le.mpr h2, not_le.mpr h3, not_le.mpr h4]
        · simp [tunnelParametersInit, checkInput, h1, h2, h3, not_lt.mpr h4, h4]
      · simp [tunnelParametersInit, checkInput, h1, h2, not_lt.mpr h3, h3]
    · simp [tunnelParametersInit, checkInput, h1, not_lt.mpr h2, h2]
  · simp [tunnelParametersInit, checkInput, not_lt.mpr h1, h1]

/- ---------------------------------------------------------------------
   Claim C10: addRefinementRegion is not atomic.
--------------------------------------------------------------------- -/

/-- C10: adding a refinement region to a case without a snappyHexMeshDict
raises, but the region has already been appended: the returned state's
refinementRegions list has grown despite the error. -/
theorem addRefinementRegion_not_atomic (c : CaseState) (r : Region)
    (hr : r.isRefinementRegion = true) (hd : c.hasSnappyHexMeshDict = false) :
    (addRefinementRegion c r).2.isSome = true ∧
      (addRefinementRegion c r).1.refinementRegions =
        c.refinementRegions ++ [r.name] ∧
      (addRefinementRegion c r).1.dictRegions = c.dictRegions := by
  simp [addRefinementRegion, hr, hd]

/- ---------------------------------------------------------------------
   Claims C2, C3: numbered-folder classification and ordering.
--------------------------------------------------------------------- -/

/-- C2 (amended): for integer-named subfolders of the project root, the
mesh-snapshot and result classifications are mutually exclusive and
together cover every numbered folder other than "0"; "0" is never a
result folder, but — contrary to the original claim — "0" is classified
as a mesh snapshot exactly when it contains a polyMesh subfolder. -/
theorem numbered_folder_partition (fs : FileSystem) (hc : CanonDigits fs)
    (hnd : NodupNames fs) :
    (∀ e ∈ fs, e.isDir = true → isDigitName e.name = true → e.name ≠ zeroName →
        ((e.name ∈ getSnappyHexMeshFolders fs) ↔ e.name ∉ getResultFolders fs)) ∧
      zeroName ∉ getResultFolders fs ∧
      (zeroName ∈ getSnappyHexMeshFolders fs ↔
        ∃ e ∈ fs, e.name = zeroName ∧ e.hasPolyMesh = true) := by
  have hmemS : ∀ {s : FName}, s ∈ getSnappyHexMeshFolders fs ↔
      ∃ e, e ∈ fs ∧ snappyQualifies e = true ∧ e.name = s :=
    mem_sortedNumbered (fun _ => snappyQualifies_digit) hc
  have hmemR : ∀ {s : FName}, s ∈ getResultFolders fs ↔
      ∃ e, e ∈ fs ∧ resultQualifies e = true ∧ e.name = s :=
    mem_sortedNumbered (fun _ => resultQualifies_digit) hc
  refine ⟨?_, ?_, ?_⟩
  · intro e he hdir hdig hz
    rw [hmemS, hmemR]
    constructor
    · rintro ⟨e', he', hq', hn'⟩ ⟨e'', he'', hq'', hn''⟩
      have h1 : e' = e := List.inj_on_of_nodup_map hnd he' he hn'
      have h2 : e'' = e := List.inj_on_of_nodup_map hnd he'' he hn''
      subst h1; subst h2
      unfold snappyQualifies at hq'
      unfold resultQualifies at hq''
      repeat rw [Bool.and_eq_true] at hq' hq''
      rw [hq'.2] at hq''
      simp at hq''
    · intro hno
      refine ⟨e, he, ?_, rfl⟩
      unfold snappyQualifies
      rw [Bool.and_eq_true, hdig]
      refine ⟨rfl, ?_⟩
      by_contra hp
      have hp' : e.hasPolyMesh = false := by
        cases h : e.hasPolyMesh
        · rfl
        · exact absurd h hp
      apply hno
      refine ⟨e, he, ?_, rfl⟩
      unfold resultQualifies
      repeat rw [Bool.and_eq_true]
      refine ⟨⟨⟨?_, hdig⟩, hdir⟩, by rw [hp']; rfl⟩
      simp [hz]
  · rw [hmemR]
    rintro ⟨e, _, hq, hn⟩
    unfold resultQualifies at hq
    repeat rw [Bool.and_eq_true] at hq
    have := hq.1.1.1
    rw [hn] at this
    simp at this
  · rw [hmemS]
    constructor
    · rintro ⟨e, he, hq, hn⟩
      unfold snappyQualifies at hq
      rw [Bool.and_eq_true] at hq
      exact ⟨e, he, hn, hq.2⟩
    · rintro ⟨e, he, hn, hp⟩
      refine ⟨e, he, ?_, hn⟩
      unfold snappyQualifies
      rw [Bool.and_eq_true, hp, hn]
      exact ⟨rfl, rfl⟩

/-- Witness for C2: the amended partition statement at a concrete root with
a snapshot 2, a result folder 5 and an initial folder 0. -/
theorem numbered_folder_partition_witness :
    CanonDigits partitionFs ∧ NodupNames partitionFs ∧
      ((∀ e ∈ partitionFs, e.isDir = true → isDigitName e.name = true →
          e.name ≠ zeroName →
          ((e.name ∈ getSnappyHexMeshFolders partitionFs) ↔
            e.name ∉ getResultFolders partitionFs)) ∧
        zeroName ∉ getResultFolders partitionFs ∧
        (zeroName ∈ getSnappyHexMeshFolders partitionFs ↔
          ∃ e ∈ partitionFs, e.name = zeroName ∧ e.hasPolyMesh = true)) :=
  ⟨by decide, by decide, numbered_folder_partition partitionFs (by decide) (by decide)⟩

/-- Counterexample for C2 as stated: when the initial folder "0" contains a
polyMesh subfolder, it is listed by getSnappyHexMeshFolders, so "0" is
not in neither listing. -/
theorem numbered_folder_partition_counterexample :
    ¬ (zeroName ∉ getSnappyHexMeshFolders zeroPolyFs ∧
        zeroName ∉ getResultFolders zeroPolyFs) := by decide

/-- C3: both numbered-folder listings return the qualifying folder names
(exactly them, as a permutation of the qualifying entries' names) ordered
by numeric value ascending. -/
theorem numbered_folders_sorted_numerically (fs : FileSystem)
    (hc : CanonDigits fs) :
    List.Sorted (fun a b : FName => charsToNat a ≤ charsToNat b)
        (getSnappyHexMeshFolders fs) ∧
      (getSnappyHexMeshFolders fs).Perm
        ((fs.filter snappyQualifies).map (fun e => e.name)) ∧
      List.Sorted (fun a b : FName => charsToNat a ≤ charsToNat b)
        (getResultFolders fs) ∧
      (getResultFolders fs).Perm
        ((fs.filter resultQualifies).map (fun e => e.name)) :=
  ⟨sortedNumbered_sorted _ (fun _ => snappyQualifies_digit) fs hc,
    sortedNumbered_perm _ (fun _ => snappyQualifies_digit) fs hc,
    sortedNumbered_sorted _ (fun _ => resultQualifies_digit) fs hc,
    sortedNumbered_perm _ (fun _ => resultQualifies_digit) fs hc⟩

/-- Witness for C3: on the root with snapshots 3, 10, 2 the listing is
2, 3, 10 — numeric, not lexicographic — and the general theorem applies. -/
theorem numbered_folders_sorted_numerically_witness :
    getSnappyHexMeshFolders numberedFs = [['2'], ['3'], ['1', '0']] ∧
      getResultFolders numberedFs = [['5']] ∧
      CanonDigits numberedFs ∧
      (List.Sorted (fun a b : FName => charsToNat a ≤ charsToNat b)
          (getSnappyHexMeshFolders numberedFs) ∧
        (getSnappyHexMeshFolders numberedFs).Perm
          ((numberedFs.filter snappyQualifies).map (fun e => e.name)) ∧
        List.Sorted (fun a b : FName => charsToNat a ≤ charsToNat b)
          (getResultFolders numberedFs) ∧
        (getResultFolders numberedFs).Perm
          ((numberedFs.filter resultQualifies).map (fun e => e.name))) :=
  ⟨by decide, by decide, by decide,
    numbered_folders_sorted_numerically numberedFs (by decide)⟩

/- ---------------------------------------------------------------------
   Claim C5: freezing and restoring snapshot folders.
--------------------------------------------------------------------- -/

theorem isDigitName_all {s : FName} (h : isDigitName s = true) :
    ∀ c ∈ s, c.isDigit = true := by
  unfold isDigitName at h
  rw [Bool.and_eq_true] at h
  exact fun c hc => List.all_eq_true.mp h.2 c hc

theorem digit_ne_org_append {s f : FName} (h : isDigitName s = true) :
    s ≠ f ++ orgSuffix := by
  intro heq
  have hdot : ('.' : Char) ∈ s := by
    rw [heq]
    exact List.mem_append.mpr (Or.inr (by decide))
  exact absurd (isDigitName_all h '.' hdot) (by decide)

theorem org_isSuffixOf_append (f : FName) :
    orgSuffix.isSuffixOf (f ++ orgSuffix) = true :=
  List.isSuffixOf_iff_suffix.mpr (List.suffix_append f orgSuffix)

theorem replaceOrgAux_append_digits :
    ∀ (s : FName) (fuel : Nat), (∀ c ∈ s, c.isDigit = true) →
      (s ++ orgSuffix).length ≤ fuel → replaceOrgAux fuel (s ++ orgSuffix) = s := by
  intro s
  induction s with
  | nil =>
    intro fuel _ hlen
    cases fuel with
    | zero => simp [orgSuffix] at hlen
    | succ k =>
      show replaceOrgAux (k + 1) orgSuffix = []
      rw [show (orgSuffix : FName) = '.' :: ['o', 'r', 'g'] from rfl]
      rw [replaceOrgAux, if_pos (by decide)]
      rw [show (List.drop orgSuffix.length ['.', 'o', 'r', 'g'] : FName) = [] from rfl]
      cases k <;> rfl
  | cons c cs ih =>
    intro fuel hdig hlen
    cases fuel with
    | zero =>
      rw [List.cons_append] at hlen
      simp at hlen
    | succ k =>
      have hcdig : c.isDigit = true := hdig c (List.mem_cons_self c cs)
      have hbeq : (('.' : Char) == c) = false := by
        rw [beq_eq_false_iff_ne]
        intro h
        rw [← h] at hcdig
        exact absurd hcdig (by decide)
      have hpre : orgSuffix.isPrefixOf (c :: (cs ++ orgSuffix)) = false := by
        rw [show (orgSuffix : FName) = '.' :: ['o', 'r', 'g'] from rfl]
        rw [List.isPrefixOf]
        rw [hbeq]
        rfl
      rw [List.cons_append, replaceOrgAux, if_neg (by rw [hpre]; exact Bool.false_ne_true)]
      have hlen' : (cs ++ orgSuffix).length ≤ k := by
        rw [List.cons_append] at hlen
        simpa using Nat.lt_succ_iff.mp (Nat.lt_of_lt_of_le (Nat.lt_succ_self _) hlen)
      rw [ih k (fun d hd => hdig d (List.mem_cons_of_mem c hd)) hlen']

theorem pyReplaceOrg_append {s : FName} (h : isDigitName s = true) :
    pyReplaceOrg (s ++ orgSuffix) = s :=
  replaceOrgAux_append_digits s _ (isDigitName_all h) (le_refl _)

theorem foldRename_ok (T : FName → FName) :
    ∀ (l : List FName) (st : FileSystem),
      l.Nodup →
      (∀ f ∈ l, ∀ e ∈ st, e.name ≠ T f) →
      (∀ f ∈ l, ∀ g ∈ l, f ≠ g → T f ≠ T g) →
      (∀ f ∈ l, ∀ g ∈ l, T f ≠ g) →
      foldRename T l st = .ok (st.map (renIn l T)) := by
  intro l
  induction l with
  | nil =>
    intro st _ _ _ _
    have hmap : st.map (renIn [] T) = st := by
      rw [List.map_congr_left (g := id) (fun e _ => by simp [renIn]), List.map_id]
    rw [foldRename, hmap]
  | cons f rest ih =>
    intro st hnd h1 h2 h3
    have hfr : f ∉ rest := (List.nodup_cons.mp hnd).1
    have hany : (st.any fun e => e.name = T f) = false := by
      rw [List.any_eq_false]
      intro e he
      simp only [decide_eq_true_eq]
      exact h1 f (List.mem_cons_self f rest) e he
    have hren : renameEntry st f (T f) =
        .ok (st.map (fun e => if e.name = f then { e with name := T f } else e)) := by
      unfold renameEntry
      rw [hany]
      rfl
    have h1' : ∀ g ∈ rest, ∀ e' ∈
        st.map (fun e => if e.name = f then { e with name := T f } else e),
        e'.name ≠ T g := by
      intro g hg e' he'
      rcases List.mem_map.mp he' with ⟨e, he, rfl⟩
      by_cases hef : e.name = f
      · rw [if_pos hef]
        exact h2 f (List.mem_cons_self f rest) g (List.mem_cons_of_mem f hg)
          (fun hfg => hfr (hfg ▸ hg))
      · rw [if_neg hef]
        exact h1 g (List.mem_cons_of_mem f hg) e he
    have h2' : ∀ g ∈ rest, ∀ g' ∈ rest, g ≠ g' → T g ≠ T g' :=
      fun g hg g' hg' => h2 g (List.mem_cons_of_mem f hg) g' (List.mem_cons_of_mem f hg')
    have h3' : ∀ g ∈ rest, ∀ g' ∈ rest, T g ≠ g' :=
      fun g hg g' hg' => h3 g (List.mem_cons_of_mem f hg) g' (List.mem_cons_of_mem f hg')
    have hstep := ih (st.map (fun e => if e.name = f then { e with name := T f } else e))
      (List.nodup_cons.mp hnd).2 h1' h2' h3'
    have hTfr : T f ∉ rest := fun hmem =>
      h3 f (List.mem_cons_self f rest) (T f) (List.mem_cons_of_mem f hmem) rfl
    have hcomp : (st.map (fun e => if e.name = f then { e with name := T f } else e)).map
        (renIn rest T) = st.map (renIn (f :: rest) T) := by
      rw [List.map_map]
      apply List.map_congr_left
      intro e _
      show renIn rest T (if e.name = f then { e with name := T f } else e) =
        renIn (f :: rest) T e
      by_cases hef : e.name = f
      · rw [if_pos hef]
        unfold renIn
        rw [if_neg (by simpa using hTfr), if_pos (by rw [hef]; exact List.mem_cons_self f rest)]
        rw [hef]
      · rw [if_neg hef]
        unfold renIn
        by_cases hmem : e.name ∈ rest
        · rw [if_pos hmem, if_pos (List.mem_cons_of_mem f hmem)]
        · rw [if_neg hmem, if_neg (by simp [hef, hmem])]
    rw [foldRename, hren]
    show foldRename T rest _ = _
    rw [hstep, hcomp]

theorem foldRename_error (T : FName → FName) (cn : FName) :
    ∀ (l : List FName) (st : FileSystem),
      cn ∉ l → (∃ w ∈ st, w.name = cn) → (∃ f ∈ l, T f = cn) →
      ∃ msg, foldRename T l st = .error msg := by
  intro l
  induction l with
  | nil =>
    rintro st _ _ ⟨f, hf, _⟩
    exact absurd hf (List.not_mem_nil f)
  | cons f rest ih =>
    rintro st hcn ⟨w, hw, hwname⟩ ⟨f₀, hf₀, hTf₀⟩
    by_cases hTf : T f = cn
    · refine ⟨"os.rename: target exists", ?_⟩
      have hany : (st.any fun e => e.name = T f) = true := by
        rw [List.any_eq_true]
        exact ⟨w, hw, by simp [hwname, hTf]⟩
      rw [foldRename]
      unfold renameEntry
      rw [hany]
      rfl
    · cases hren : renameEntry st f (T f) with
      | error e =>
        refine ⟨e, ?_⟩
        rw [foldRename, hren]
      | ok st' =>
        have hf₀rest : f₀ ∈ rest := by
          cases List.mem_cons.mp hf₀ with
          | inl h => exact absurd (h ▸ hTf₀) hTf
          | inr h => exact h
        have hcnf : cn ≠ f := fun h => hcn (h ▸ List.mem_cons_self f rest)
        have hst' : st' = st.map
            (fun e => if e.name = f then { e with name := T f } else e) := by
          unfold renameEntry at hren
          by_cases hany : (st.any fun e => e.name = T f) = true
          · rw [hany] at hren
            cases hren
          · rw [Bool.eq_false_iff.mpr hany] at hren
            injection hren with h
            exact h.symm
        have hw' : ∃ w' ∈ st', w'.name = cn := by
          rw [hst']
          refine ⟨if w.name = f then { w with name := T f } else w,
            List.mem_map_of_mem _ hw, ?_⟩
          rw [if_neg (by rw [hwname]; exact hcnf), hwname]
        rcases ih st' (fun h => hcn (List.mem_cons_of_mem f h)) hw' ⟨f₀, hf₀rest, hTf₀⟩
          with ⟨msg, hmsg⟩
        refine ⟨msg, ?_⟩
        rw [foldRename, hren]
        exact hmsg

theorem snappy_mem_name {fs : FileSystem} (hc : CanonDigits fs) (hnd : NodupNames fs)
    {e : Entry} (he : e ∈ fs) (hmem : e.name ∈ getSnappyHexMeshFolders fs) :
    snappyQualifies e = true := by
  rcases (mem_sortedNumbered (fun _ => snappyQualifies_digit) hc).mp hmem
    with ⟨e', he', hq', hn'⟩
  have heq : e' = e := List.inj_on_of_nodup_map hnd he' he hn'
  exact heq ▸ hq'

theorem snappy_digit_of_mem {fs : FileSystem} (hc : CanonDigits fs)
    {f : FName} (hf : f ∈ getSnappyHexMeshFolders fs) : isDigitName f = true := by
  rcases (mem_sortedNumbered (fun _ => snappyQualifies_digit) hc).mp hf
    with ⟨e, _, hq, rfl⟩
  exact snappyQualifies_digit hq

theorem freeze_ok (fs : FileSystem) (hc : CanonDigits fs) (hnd : NodupNames fs)
    (hno : NoOrgNames fs) :
    renameSnappyHexMeshFolders fs true =
      .ok (fs.map (renIn (getSnappyHexMeshFolders fs) orgTarget)) := by
  have hfold := foldRename_ok orgTarget (getSnappyHexMeshFolders fs) fs
    (sortedNumbered_nodup _ (fun _ => snappyQualifies_digit) fs hc hnd)
    (by
      intro f hf e he heq
      have h1 := hno e he
      rw [show orgTarget f = f ++ orgSuffix from rfl] at heq
      rw [heq, org_isSuffixOf_append] at h1
      simp at h1)
    (by
      intro f _ g _ hfg heq
      have heq' : f ++ orgSuffix = g ++ orgSuffix := heq
      exact hfg (List.append_cancel_right heq'))
    (by
      intro f hf g hg heq
      have heq' : f ++ orgSuffix = g := heq
      exact digit_ne_org_append (snappy_digit_of_mem hc hg) heq'.symm)
  unfold renameSnappyHexMeshFolders
  rw [if_neg (by decide), hfold]

theorem restoreList_frozen (fs : FileSystem) (hc : CanonDigits fs) (hnd : NodupNames fs)
    (hno : NoOrgNames fs) :
    restoreList (fs.map (renIn (getSnappyHexMeshFolders fs) orgTarget)) =
      (fs.filter (fun e => (e.name ∈ getSnappyHexMeshFolders fs : Bool))).map
        (fun e => orgTarget e.name) := by
  unfold restoreList
  rw [List.filter_map, List.map_map]
  have hfil : fs.filter ((fun e => orgSuffix.isSuffixOf e.name && e.hasPolyMesh) ∘
      renIn (getSnappyHexMeshFolders fs) orgTarget) =
      fs.filter (fun e => (e.name ∈ getSnappyHexMeshFolders fs : Bool)) := by
    apply List.filter_congr
    intro e he
    show (orgSuffix.isSuffixOf (renIn (getSnappyHexMeshFolders fs) orgTarget e).name &&
      (renIn (getSnappyHexMeshFolders fs) orgTarget e).hasPolyMesh) = _
    by_cases hmem : e.name ∈ getSnappyHexMeshFolders fs
    · have hq : snappyQualifies e = true := snappy_mem_name hc hnd he hmem
      have hpoly : e.hasPolyMesh = true := ((Bool.and_eq_true _ _).mp hq).2
      unfold renIn
      rw [if_pos hmem]
      show (orgSuffix.isSuffixOf (e.name ++ orgSuffix) && e.hasPolyMesh) = _
      rw [org_isSuffixOf_append, hpoly]
      simp [hmem]
    · unfold renIn
      rw [if_neg hmem]
      show (orgSuffix.isSuffixOf e.name && e.hasPolyMesh) = _
      rw [hno e he]
      simp [hmem]
  rw [hfil]
  apply List.map_congr_left
  intro e he
  have hmem : e.name ∈ getSnappyHexMeshFolders fs := by
    have := List.of_mem_filter he
    simpa using this
  show (renIn (getSnappyHexMeshFolders fs) orgTarget e).name = orgTarget e.name
  unfold renIn
  rw [if_pos hmem]

theorem restore_frozen_ok (fs : FileSystem) (hc : CanonDigits fs) (hnd : NodupNames fs)
    (hno : NoOrgNames fs) :
    renameSnappyHexMeshFolders
      (fs.map (renIn (getSnappyHexMeshFolders fs) orgTarget)) false = .ok fs := by
  have hLdigit : ∀ f ∈ getSnappyHexMeshFolders fs, isDigitName f = true :=
    fun f hf => snappy_digit_of_mem hc hf
  have hreplace : ∀ a : Entry, a.name ∈ getSnappyHexMeshFolders fs →
      pyReplaceOrg (orgTarget a.name) = a.name := by
    intro a haL
    exact pyReplaceOrg_append (hLdigit _ haL)
  have hmemRL : ∀ f ∈ (fs.filter
        (fun e => (e.name ∈ getSnappyHexMeshFolders fs : Bool))).map
        (fun e => orgTarget e.name),
      ∃ a, a ∈ fs ∧ a.name ∈ getSnappyHexMeshFolders fs ∧ f = orgTarget a.name := by
    intro f hf
    rcases List.mem_map.mp hf with ⟨a, ha, rfl⟩
    have haL : a.name ∈ getSnappyHexMeshFolders fs := by
      simpa using List.of_mem_filter ha
    exact ⟨a, List.mem_of_mem_filter ha, haL, rfl⟩
  have hnodupRL : ((fs.filter
      (fun e => (e.name ∈ getSnappyHexMeshFolders fs : Bool))).map
      (fun e => orgTarget e.name)).Nodup := by
    apply List.Nodup.map_on
    · intro x hx y hy hxy
      have hxy' : x.name ++ orgSuffix = y.name ++ orgSuffix := hxy
      exact List.inj_on_of_nodup_map hnd (List.mem_of_mem_filter hx)
        (List.mem_of_mem_filter hy) (List.append_cancel_right hxy')
    · exact (hnd.of_map _).filter _
  have h1 : ∀ f ∈ (fs.filter
        (fun e => (e.name ∈ getSnappyHexMeshFolders fs : Bool))).map
        (fun e => orgTarget e.name),
      ∀ e' ∈ fs.map (renIn (getSnappyHexMeshFolders fs) orgTarget),
        e'.name ≠ pyReplaceOrg f := by
    intro f hf e' he'
    rcases hmemRL f hf with ⟨a, _, haL, rfl⟩
    rw [hreplace a haL]
    rcases List.mem_map.mp he' with ⟨e, he, rfl⟩
    by_cases hmem : e.name ∈ getSnappyHexMeshFolders fs
    · show (renIn (getSnappyHexMeshFolders fs) orgTarget e).name ≠ a.name
      unfold renIn
      rw [if_pos hmem]
      show e.name ++ orgSuffix ≠ a.name
      intro heq
      exact digit_ne_org_append (hLdigit _ haL) heq.symm
    · show (renIn (getSnappyHexMeshFolders fs) orgTarget e).name ≠ a.name
      unfold renIn
      rw [if_neg hmem]
      intro heq
      exact hmem (heq ▸ haL)
  have h2 : ∀ f ∈ (fs.filter
        (fun e => (e.name ∈ getSnappyHexMeshFolders fs : Bool))).map
        (fun e => orgTarget e.name),
      ∀ g ∈ (fs.filter
        (fun e => (e.name ∈ getSnappyHexMeshFolders fs : Bool))).map
        (fun e => orgTarget e.name),
      f ≠ g → pyReplaceOrg f ≠ pyReplaceOrg g := by
    intro f hf g hg hfg
    rcases hmemRL f hf with ⟨a, _, haL, rfl⟩
    rcases hmemRL g hg with ⟨b, _, hbL, rfl⟩
    rw [hreplace a haL, hreplace b hbL]
    intro hab
    apply hfg
    show a.name ++ orgSuffix = b.name ++ orgSuffix
    rw [hab]
  have h3 : ∀ f ∈ (fs.filter
        (fun e => (e.name ∈ getSnappyHexMeshFolders fs : Bool))).map
        (fun e => orgTarget e.name),
      ∀ g ∈ (fs.filter
        (fun e => (e.name ∈ getSnappyHexMeshFolders fs : Bool))).map
        (fun e => orgTarget e.name),
      pyReplaceOrg f ≠ g := by
    intro f hf g hg
    rcases hmemRL f hf with ⟨a, _, haL, rfl⟩
    rcases hmemRL g hg with ⟨b, _, hbL, rfl⟩
    rw [hreplace a haL]
    have : a.name ≠ b.name ++ orgSuffix := digit_ne_org_append (hLdigit _ haL)
    exact this
  have hfold := foldRename_ok pyReplaceOrg
    ((fs.filter (fun e => (e.name ∈ getSnappyHexMeshFolders fs : Bool))).map
      (fun e => orgTarget e.name))
    (fs.map (renIn (getSnappyHexMeshFolders fs) orgTarget)) hnodupRL h1 h2 h3
  unfold renameSnappyHexMeshFolders
  rw [if_pos (by decide)]
  rw [restoreList_frozen fs hc hnd hno, hfold]
  apply congrArg
  rw [List.map_map]
  have hpt : ∀ e ∈ fs,
      (renIn ((fs.filter
          (fun e => (e.name ∈ getSnappyHexMeshFolders fs : Bool))).map
          (fun e => orgTarget e.name)) pyReplaceOrg ∘
        renIn (getSnappyHexMeshFolders fs) orgTarget) e = e := by
    intro e he
    show renIn _ pyReplaceOrg (renIn (getSnappyHexMeshFolders fs) orgTarget e) = e
    by_cases hmem : e.name ∈ getSnappyHexMeshFolders fs
    · have hinner : renIn (getSnappyHexMeshFolders fs) orgTarget e =
          { e with name := orgTarget e.name } := by
        unfold renIn
        rw [if_pos hmem]
      rw [hinner]
      have hin : ({ e with name := orgTarget e.name } : Entry).name ∈
          (fs.filter (fun e => (e.name ∈ getSnappyHexMeshFolders fs : Bool))).map
            (fun e => orgTarget e.name) :=
        List.mem_map_of_mem _ (List.mem_filter.mpr ⟨he, decide_eq_true hmem⟩)
      unfold renIn
      rw [if_pos hin]
      show ({ e with name := pyReplaceOrg (orgTarget e.name) } : Entry) = e
      rw [hreplace e hmem]
    · have hinner : renIn (getSnappyHexMeshFolders fs) orgTarget e = e := by
        unfold renIn
        rw [if_neg hmem]
      rw [hinner]
      unfold renIn
      rw [if_neg ?notin]
      case notin =>
        intro hin
        rcases List.mem_map.mp hin with ⟨a, _, heq⟩
        have h1 := hno e he
        rw [← heq, show orgTarget a.name = a.name ++ orgSuffix from rfl,
          org_isSuffixOf_append] at h1
        simp at h1
  rw [List.map_congr_left hpt]
  exact List.map_id' fs

/-- C5: freezing the snapshot folders and then restoring them returns the
project root to exactly its original contents (for a well-formed root:
distinct canonical folder names, none already frozen); and when a restore
target name already exists as a folder that the restore pass does not
itself rename away, the restore fails with a surfaced error instead of
silently overwriting. -/
theorem freeze_restore_roundtrip (fs : FileSystem) :
    (CanonDigits fs → NodupNames fs → NoOrgNames fs →
      (renameSnappyHexMeshFolders fs true).bind
        (fun fs' => renameSnappyHexMeshFolders fs' false) = .ok fs) ∧
      (∀ e c : Entry, NodupNames fs → e ∈ fs →
        orgSuffix.isSuffixOf e.name = true → e.hasPolyMesh = true →
        c ∈ fs → c.name = pyReplaceOrg e.name →
        ¬(orgSuffix.isSuffixOf c.name = true ∧ c.hasPolyMesh = true) →
        ∃ msg, renameSnappyHexMeshFolders fs false = .error msg) := by
  constructor
  · intro hc hnd hno
    rw [freeze_ok fs hc hnd hno]
    show renameSnappyHexMeshFolders _ false = .ok fs
    exact restore_frozen_ok fs hc hnd hno
  · intro e c hnd he hsuf hpoly hcfs hcname hcnot
    unfold renameSnappyHexMeshFolders
    rw [if_pos (by decide)]
    apply foldRename_error pyReplaceOrg c.name (restoreList fs) fs
    · intro hmem
      unfold restoreList at hmem
      rcases List.mem_map.mp hmem with ⟨e', he', hn'⟩
      have hp' := List.of_mem_filter he'
      rw [Bool.and_eq_true] at hp'
      have heq : e' = c :=
        List.inj_on_of_nodup_map hnd (List.mem_of_mem_filter he') hcfs hn'
      exact hcnot ⟨heq ▸ hp'.1, heq ▸ hp'.2⟩
    · exact ⟨c, hcfs, rfl⟩
    · refine ⟨e.name, ?_, hcname.symm⟩
      unfold restoreList
      exact List.mem_map_of_mem _
        (List.mem_filter.mpr ⟨he, by rw [Bool.and_eq_true]; exact ⟨hsuf, hpoly⟩⟩)

/-- Witness for C5: the round trip on a root with snapshot 2 and result
folder 5, and the surfaced restore error on a root where the frozen
snapshot 2.org collides with an existing folder 2. -/
theorem freeze_restore_roundtrip_witness :
    ((renameSnappyHexMeshFolders freezeFs true).bind
        (fun fs' => renameSnappyHexMeshFolders fs' false) = .ok freezeFs) ∧
      (∃ msg, renameSnappyHexMeshFolders collisionFs false = .error msg) :=
  ⟨(freeze_restore_roundtrip freezeFs).1 (by decide) (by decide) (by decide),
    (freeze_restore_roundtrip collisionFs).2 ⟨['2', '.', 'o', 'r', 'g'], true, true⟩
      ⟨['2'], true, false⟩ (by decide) (by decide) (by decide) (by decide)
      (by decide) (by decide) (by decide)⟩

/- ---------------------------------------------------------------------
   Claim C7: save with overwrite.
--------------------------------------------------------------------- -/

theorem mkdirLoop_trace_sublist (failing : List FName) (folders : List FName) :
    ∀ existing, ((mkdirLoop failing folders existing).2).Sublist folders := by
  induction folders with
  | nil => intro existing; simp [mkdirLoop]
  | cons f rest ih =>
    intro existing
    simp only [mkdirLoop]
    split_ifs with h1 h2
    · exact (ih existing).cons f
    · exact (List.nil_sublist rest).cons₂ f
    · exact (ih (existing ++ [f])).cons₂ f

theorem getLast?_cons_of_getLast? {α : Type} {p x : α} {l : List α}
    (h : l.getLast? = some p) : (x :: l).getLast? = some p := by
  cases l with
  | nil => simp at h
  | cons a t => rw [List.getLast?_cons_cons]; exact h

theorem mkdirLoop_error (failing : List FName) (folders : List FName) :
    ∀ existing p, (mkdirLoop failing folders existing).1 = .error p →
      p ∈ failing ∧ p ∈ folders ∧
        (mkdirLoop failing folders existing).2.count p = 1 ∧
        (mkdirLoop failing folders existing).2.getLast? = some p := by
  induction folders with
  | nil => intro existing p h; simp [mkdirLoop] at h
  | cons f rest ih =>
    intro existing p h
    simp only [mkdirLoop] at h ⊢
    split_ifs at h ⊢ with h1 h2
    · rcases ih existing p h with ⟨ha, hb, hc, hd⟩
      exact ⟨ha, List.mem_cons_of_mem f hb, hc, hd⟩
    · have hpf : f = p := by injection h
      subst hpf
      refine ⟨h2, List.mem_cons_self f rest, by simp, by simp⟩
    · rcases ih (existing ++ [f]) p h with ⟨ha, hb, hc, hd⟩
      have hne : p ≠ f := fun hpf => h2 (hpf ▸ ha)
      have hfp : ¬ f = p := fun hfp => hne hfp.symm
      refine ⟨ha, List.mem_cons_of_mem f hb, ?_, ?_⟩
      · rw [List.count_cons, hc]
        simp [hfp]
      · exact getLast?_cons_of_getLast? hd

theorem mkdirLoop_ok_of_no_failing (folders : List FName) :
    ∀ existing, ∃ fin, (mkdirLoop [] folders existing).1 = .ok fin := by
  induction folders with
  | nil => intro existing; exact ⟨existing, rfl⟩
  | cons f rest ih =>
    intro existing
    simp only [mkdirLoop]
    split_ifs with h1 h2
    · exact ih existing
    · exact absurd h2 (List.not_mem_nil f)
    · exact ih (existing ++ [f])

/-- C7: in Case.save with overwrite=True the delete of the project root is
best-effort — by itself it can never make save fail (when no makedirs
call fails, save succeeds whatever the delete did) — while a makedirs
failure is fatal: the result is an error naming a failing subfolder path,
that path's creation was attempted exactly once (never retried: the whole
attempt trace is duplicate-free), and the loop stopped right there (the
failing path is the last attempted one). -/
theorem save_overwrite_delete_ignored_mkdir_fatal (env : SaveEnv) :
    ((save env true).2).Nodup ∧
      (env.mkdirFails = [] → ∃ fin, (save env true).1 = .ok fin) ∧
      (∀ p, (save env true).1 = .error p →
        p ∈ env.mkdirFails ∧ p ∈ SUBFOLDERS ∧
          (save env true).2.count p = 1 ∧
          (save env true).2.getLast? = some p) := by
  refine ⟨?_, ?_, ?_⟩
  · exact (mkdirLoop_trace_sublist _ _ _).nodup (by decide)
  · intro h
    show ∃ fin, (mkdirLoop env.mkdirFails SUBFOLDERS _).1 = .ok fin
    rw [h]
    exact mkdirLoop_ok_of_no_failing SUBFOLDERS _
  · intro p h
    exact mkdirLoop_error _ _ _ p h

/-- Witness for C7: with a failing root delete and a failing makedirs for
'system', save surfaces the error for 'system', attempted once, as the
last attempt. -/
theorem save_overwrite_delete_ignored_mkdir_fatal_witness :
    ((save saveEnvW true).2).Nodup ∧
      ("system".data ∈ saveEnvW.mkdirFails ∧ "system".data ∈ SUBFOLDERS ∧
        (save saveEnvW true).2.count "system".data = 1 ∧
        (save saveEnvW true).2.getLast? = some "system".data) :=
  ⟨(save_overwrite_delete_ignored_mkdir_fatal saveEnvW).1,
    (save_overwrite_delete_ignored_mkdir_fatal saveEnvW).2.2 "system".data rfl⟩

/- ---------------------------------------------------------------------
   Claim C4: best-effort folder deletion during purge.
--------------------------------------------------------------------- -/

/-- C4 (code bug): deleting result folders is best-effort as claimed — with
folders 5 and 7 and a failing rmtree on 5, the failure is reported and
folder 7 is still removed — but in removeSnappyHexMeshFolders the
except-print formats the undefined name _f, so the first rmtree failure
raises NameError instead of being reported: with snapshots 1 and 2 and a
failing rmtree on 1, the call aborts and folder 2 is never processed. -/
theorem remove_folders_failure_behavior :
    removeSnappyHexMeshFolders snappyRemoveFs [['1']] =
        .error "NameError: name _f is not defined" ∧
      removeResultFolders resultRemoveFs [['5']] =
        ([⟨['5'], true, false⟩], [['5']]) := by
  constructor
  · rfl
  · rfl

/-- Witness for C10 at a concrete case and region. -/
theorem addRefinementRegion_not_atomic_witness :
    (addRefinementRegion ⟨[], false, []⟩ ⟨['r'], true⟩).2.isSome = true ∧
      (addRefinementRegion ⟨[], false, []⟩ ⟨['r'], true⟩).1.refinementRegions =
        ([] : List FName) ++ [['r']] ∧
      (addRefinementRegion ⟨[], false, []⟩ ⟨['r'], true⟩).1.dictRegions = [] :=
  addRefinementRegion_not_atomic ⟨[], false, []⟩ ⟨['r'], true⟩ rfl rfl

end Butterfly
